import Mathlib

/-!
VocalFlow: a shallow embedding of the audio-to-note matching engine.

Source layout:
* src/services/audioUtils.ts — getNoteFromFrequency, getFrequencyFromMidi, autoCorrelate
* src/App.tsx — detectPitch (classifier + vocal-band filter) and the game-loop
  effect (the NoteMatcher), plus restart.

Machine numbers are modelled as exact rationals (for the matcher and the
detector, whose claims are settled by concrete evaluation) and as reals (for
the classifier, which uses logarithms).  JavaScript division producing
Infinity or NaN is modelled explicitly by the JsNumber type.
-/

namespace VocalFlow

/-! ## NoteMatcher (src/App.tsx game-loop effect)

State held by the App component that the game-loop effect reads and writes:
currentIndex, matchDurationRef.current and completed.  A tick is one run of
the effect body.  The Note record of src/types.ts also carries pitch,
frequency, duration, lyric and id fields; the matcher reads only midi, so
only that field is embedded. -/

inductive GameMode
  | EASY
  | HARD
deriving DecidableEq, Repr

structure Note where
  midi : ℤ
deriving DecidableEq, Repr

/-- One observation per tick: userMidi is None when no usable pitch was
detected this frame, centsOff is the retained tuning error. -/
structure Obs where
  userMidi : Option ℤ
  centsOff : ℚ
deriving DecidableEq, Repr

structure MState where
  currentIndex : ℕ
  matchDuration : ℚ
  completed : Bool
deriving DecidableEq, Repr

/-- Source: const tolerance = gameMode === GameMode.EASY ? 50 : 25. -/
def tolerance (gameMode : GameMode) : ℚ :=
  if gameMode = GameMode.EASY then 50 else 25

/-- Source: const requiredHoldTime = gameMode === GameMode.EASY ? 20 : 80. -/
def requiredHoldTime (gameMode : GameMode) : ℚ :=
  if gameMode = GameMode.EASY then 20 else 80

/-- One run of the game-loop effect body in src/App.tsx (lines 101-137).
The early return `if (!song || completed || !isListening || userMidi === null)
return;` is the first guard (song presence is modelled by the notes list
being supplied); `if (!targetNote) return;` is the none arm of the match.
The if condition on the accumulated duration mirrors
`matchDurationRef.current > requiredHoldTime`, and on advance the source
sets the duration to 0 and either increments currentIndex (when
`currentIndex < song.notes.length - 1`) or sets completed. -/
def tick (notes : List Note) (gameMode : GameMode) (isListening : Bool)
    (s : MState) (o : Obs) : MState :=
  if s.completed = true ∨ isListening = false ∨ o.userMidi = none then s
  else
    match notes[s.currentIndex]?, o.userMidi with
    | none, _ => s
    | _, none => s
    | some targetNote, some userMidi =>
      -- noteMatch && isTuneOkay
      let matchDuration : ℚ :=
        if userMidi = targetNote.midi ∧ |o.centsOff| ≤ tolerance gameMode then
          s.matchDuration + 16
        else
          max 0 (s.matchDuration - 16)
      if requiredHoldTime gameMode < matchDuration then
        if s.currentIndex < notes.length - 1 then
          { currentIndex := s.currentIndex + 1, matchDuration := 0,
            completed := s.completed }
        else
          { currentIndex := s.currentIndex, matchDuration := 0,
            completed := true }
      else
        { s with matchDuration := matchDuration }

/-- Source restart (src/App.tsx lines 182-187): setCurrentIndex(0),
setCompleted(false), matchDurationRef.current = 0.  (It may additionally
resume listening, which is external to the progression state.) -/
def restart : MState :=
  { currentIndex := 0, matchDuration := 0, completed := false }

/-- Feeding a sequence of per-tick observations through the game loop. -/
def runTicks (notes : List Note) (gameMode : GameMode) (isListening : Bool) :
    MState → List Obs → MState
  | s, [] => s
  | s, o :: rest => runTicks notes gameMode isListening
      (tick notes gameMode isListening s o) rest

/-! ## PitchClassifier (src/App.tsx detectPitch, src/services/audioUtils.ts)

The classifier works on IEEE doubles in the source; it is embedded over the
reals.  JavaScript Math.round rounds half-way cases up (towards plus
infinity), that is round(x) = floor(x + 1/2) for finite x. -/

/-- JavaScript Math.round on a finite value. -/
noncomputable def jsRound (x : ℝ) : ℤ := ⌊x + 1 / 2⌋

/-- Source (App.tsx line 85):
const midiFloat = 12 * (Math.log(frequency / 440) / Math.log(2)) + 69. -/
noncomputable def midiFloat (frequency : ℝ) : ℝ :=
  12 * (Real.log (frequency / 440) / Real.log 2) + 69

/-- Source (App.tsx line 86): const midiNote = Math.round(midiFloat). -/
noncomputable def midiNote (frequency : ℝ) : ℤ := jsRound (midiFloat frequency)

/-- Source (App.tsx line 87): const cents = (midiFloat - midiNote) * 100. -/
noncomputable def centsOff (frequency : ℝ) : ℝ :=
  (midiFloat frequency - (midiNote frequency : ℝ)) * 100

/-- Source (audioUtils.ts lines 8-10):
440 * Math.pow(2, (midi - 69) / 12). -/
noncomputable def getFrequencyFromMidi (midi : ℤ) : ℝ :=
  440 * (2 : ℝ) ^ (((midi : ℝ) - 69) / 12)

/-! ## PitchDetector (src/services/audioUtils.ts autoCorrelate)

Buffers are finite lists of exact rationals (sample values).  The one place
where JavaScript float semantics leak into the control flow is handled
explicitly:
* out-of-bounds array reads give undefined; `x > undefined` is false and
  arithmetic on undefined gives NaN, which is falsy — modelled by Option
  reads (cAt) and by the loop conditions requiring the indices in bounds;
* the final `sampleRate / T0` can divide by zero or a negative lag —
  modelled by jsDivide returning a JsNumber.
The embedding is faithful for nonempty buffers (an empty buffer makes the
RMS expression NaN in JavaScript; every claim assumes a nonempty buffer,
and the analyser always supplies fftSize = 2048 samples). -/

/-- Result of the final JavaScript division: a finite number, a signed
infinity, or NaN. -/
inductive JsNumber
  | val (x : ℚ)
  | posInf
  | negInf
  | nan
deriving DecidableEq, Repr

/-- JavaScript division a / b on finite operands. -/
def jsDivide (a b : ℚ) : JsNumber :=
  if b = 0 then
    if 0 < a then JsNumber.posInf
    else if a < 0 then JsNumber.negInf
    else JsNumber.nan
  else JsNumber.val (a / b)

/-- Sum of squares accumulated by the first loop of autoCorrelate. -/
def sumSq (buffer : List ℚ) : ℚ := (buffer.map fun v => v * v).sum

/-- Source: rms = Math.sqrt(rms / SIZE) after accumulating the squares. -/
noncomputable def rms (buffer : List ℚ) : ℝ :=
  Real.sqrt ((sumSq buffer : ℝ) / (buffer.length : ℝ))

/-- First trim loop body over a list of candidate indices:
for each i in order, if |buffer[i]| < 0.2 return i; default r1 = 0. -/
def trimLeadLoop (buffer : List ℚ) : List ℕ → ℕ
  | [] => 0
  | i :: rest =>
    if |buffer.getD i 0| < 1 / 5 then i else trimLeadLoop buffer rest

/-- Source (audioUtils.ts lines 38-43): scan i = 0, 1, ... while i < SIZE/2
(JavaScript real division, equivalent to 2 * i < SIZE, so i ranges over
the first (SIZE + 1) / 2 indices) for the first |buffer[i]| < 0.2. -/
def trimLead (buffer : List ℚ) : ℕ :=
  trimLeadLoop buffer (List.range' 0 ((buffer.length + 1) / 2))

/-- Second trim loop body: for each i in order, if |buffer[SIZE - i]| < 0.2
return SIZE - i; default r2 = SIZE - 1. -/
def trimTrailLoop (buffer : List ℚ) : List ℕ → ℕ
  | [] => buffer.length - 1
  | i :: rest =>
    if |buffer.getD (buffer.length - i) 0| < 1 / 5 then buffer.length - i
    else trimTrailLoop buffer rest

/-- Source (audioUtils.ts lines 44-49): scan i = 1, 2, ... while i < SIZE/2
(equivalent to 2 * i < SIZE, so i ranges over [1, (SIZE + 1) / 2)) for the
first |buffer[SIZE - i]| < 0.2. -/
def trimTrail (buffer : List ℚ) : ℕ :=
  trimTrailLoop buffer (List.range' 1 ((buffer.length + 1) / 2 - 1))

/-- JavaScript Array.prototype.slice(r1, r2) for 0 ≤ r1, r2: the elements
with indices in [r1, r2). -/
def jsSlice (buffer : List ℚ) (r1 r2 : ℕ) : List ℚ :=
  (buffer.take r2).drop r1

/-- Source (audioUtils.ts lines 54-58): the unnormalized autocorrelation
c[i] = Σ_j buf2[j] * buf2[j + i] for j in [0, length - i). -/
def autocorr (buf2 : List ℚ) : List ℚ :=
  (List.range buf2.length).map fun i =>
    ((List.range (buf2.length - i)).map fun j =>
      buf2.getD j 0 * buf2.getD (j + i) 0).sum

/-- Source (audioUtils.ts line 62): while (c[d] > c[d+1]) d++.
The comparison is false as soon as c[d+1] is out of bounds (undefined), so
the condition is d + 1 < length together with the numeric comparison.
The loop is embedded with a fuel argument; c.length units of fuel are
enough (declineWalkAux_stable below), since d increases by 1 per
iteration and the condition forces d + 1 < length. -/
def declineWalkAux (c : List ℚ) : ℕ → ℕ → ℕ
  | 0, d => d
  | fuel + 1, d =>
    if d + 1 < c.length ∧ c.getD (d + 1) 0 < c.getD d 0 then
      declineWalkAux c fuel (d + 1)
    else d

def declineWalk (c : List ℚ) : ℕ := declineWalkAux c c.length 0

/-- Source (audioUtils.ts lines 64-72): scan i from d to length - 1
keeping the position of the strictly largest c[i]; maxval and maxpos both
start at -1, so maxpos stays -1 when the range is empty (or every value is
at most -1). -/
def maxLoop (c : List ℚ) : List ℕ → ℚ × ℤ → ℚ × ℤ
  | [], acc => acc
  | i :: rest, (maxval, maxpos) =>
    if maxval < c.getD i 0 then maxLoop c rest (c.getD i 0, (i : ℤ))
    else maxLoop c rest (maxval, maxpos)

/-- JavaScript array read c[i] for an integer index: undefined (none) out
of bounds. -/
def cAt (c : List ℚ) (i : ℤ) : Option ℚ :=
  if 0 ≤ i ∧ i < (c.length : ℤ) then some (c.getD i.toNat 0) else none

/-- Source (audioUtils.ts lines 76-83): parabolic interpolation.  When any
of c[T0-1], c[T0], c[T0+1] is undefined, a is NaN, and `if (a)` is falsy
for both NaN and 0, so T0 is kept unrefined in those cases. -/
def parabolicRefine (c : List ℚ) (T0 : ℤ) : ℚ :=
  match cAt c (T0 - 1), cAt c T0, cAt c (T0 + 1) with
  | some x1, some x2, some x3 =>
    let a := (x1 + x3 - 2 * x2) / 2
    let b := (x3 - x1) / 2
    if a ≠ 0 then (T0 : ℚ) - b / (2 * a) else (T0 : ℚ)
  | _, _, _ => (T0 : ℚ)

/-- Source (audioUtils.ts lines 19-85).  The noise gate compares
Math.sqrt(sumSq / SIZE) < 0.01; on the nonempty-buffer domain this equals
the rational comparison sumSq / SIZE < 1/10000 used here so that the
function stays computable (lemma rms_lt_hundredth_iff below). -/
def autoCorrelate (buffer : List ℚ) (sampleRate : ℚ) : JsNumber :=
  if sumSq buffer / (buffer.length : ℚ) < 1 / 10000 then
    JsNumber.val (-1)
  else
    let r1 := trimLead buffer
    let r2 := trimTrail buffer
    let buf2 := jsSlice buffer r1 r2
    let c := autocorr buf2
    let d := declineWalk c
    let T0 := (maxLoop c (List.range' d (c.length - d)) (-1, -1)).2
    jsDivide sampleRate (parabolicRefine c T0)

/-- The NoPitch sentinel returned by autoCorrelate. -/
def noPitch : JsNumber := JsNumber.val (-1)

/-- Source (App.tsx lines 79-95): the caller accepts only
frequency > 80 && frequency < 1200 and then stores the rounded midi note;
otherwise userMidi is set to null.  Both comparisons are false for NaN;
for +Infinity the second is false, for -Infinity the first. -/
noncomputable def userMidiOf : JsNumber → Option ℤ
  | JsNumber.val x => if 80 < x ∧ x < 1200 then some (midiNote (x : ℝ)) else none
  | _ => none

/-! ## Matcher lemmas and claims -/

lemma tolerance_EASY : tolerance GameMode.EASY = 50 := rfl

lemma tolerance_HARD : tolerance GameMode.HARD = 25 := rfl

lemma requiredHoldTime_EASY : requiredHoldTime GameMode.EASY = 20 := rfl

lemma requiredHoldTime_HARD : requiredHoldTime GameMode.HARD = 80 := rfl

lemma requiredHoldTime_nonneg (gameMode : GameMode) :
    0 ≤ requiredHoldTime gameMode := by
  cases gameMode
  · rw [requiredHoldTime_EASY]; norm_num
  · rw [requiredHoldTime_HARD]; norm_num

lemma tick_skip_noPitch (notes : List Note) (gameMode : GameMode)
    (isListening : Bool) (s : MState) (o : Obs) (h : o.userMidi = none) :
    tick notes gameMode isListening s o = s := by
  simp [tick, h]

lemma tick_mismatch {notes : List Note} {s : MState} {t : Note} {o : Obs}
    {m : ℤ} (gameMode : GameMode)
    (hc : s.completed = false) (ht : notes[s.currentIndex]? = some t)
    (hm : o.userMidi = some m)
    (hbad : ¬(m = t.midi ∧ |o.centsOff| ≤ tolerance gameMode))
    (hinv : s.matchDuration ≤ requiredHoldTime gameMode) :
    tick notes gameMode true s o =
      { s with matchDuration := max 0 (s.matchDuration - 16) } := by
  have hle : max 0 (s.matchDuration - 16) ≤ requiredHoldTime gameMode :=
    max_le (requiredHoldTime_nonneg gameMode) (by linarith)
  simp [tick, hc, ht, hm, hbad, not_lt.2 hle]

lemma tick_hard_noadv {notes : List Note} {i : ℕ} {t : Note} {o : Obs} {h : ℚ}
    (ht : notes[i]? = some t) (hm : o.userMidi = some t.midi)
    (hcent : |o.centsOff| ≤ 25) (hh : h + 16 ≤ 80) :
    tick notes GameMode.HARD true ⟨i, h, false⟩ o = ⟨i, h + 16, false⟩ := by
  simp [tick, ht, hm, hcent, tolerance_HARD, requiredHoldTime_HARD, not_lt.2 hh]

lemma tick_hard_adv {notes : List Note} {i : ℕ} {t : Note} {o : Obs} {h : ℚ}
    (ht : notes[i]? = some t) (hm : o.userMidi = some t.midi)
    (hcent : |o.centsOff| ≤ 25) (hh : 80 < h + 16)
    (hlast : i < notes.length - 1) :
    tick notes GameMode.HARD true ⟨i, h, false⟩ o = ⟨i + 1, 0, false⟩ := by
  simp [tick, ht, hm, hcent, tolerance_HARD, requiredHoldTime_HARD, hh, hlast]

/-- Claim C1, counterexample to the claim as stated: on a NoPitch tick
(userMidi null) the game-loop effect returns before the decay line, so the
accumulated hold time is left at 16, not decayed to max(0, 16 - 16) = 0. -/
theorem C1_counterexample :
    tick [⟨60⟩] GameMode.EASY true ⟨0, 16, false⟩ ⟨none, 0⟩ = ⟨0, 16, false⟩ ∧
    (tick [⟨60⟩] GameMode.EASY true ⟨0, 16, false⟩ ⟨none, 0⟩).matchDuration ≠
      max 0 ((16 : ℚ) - 16) := by
  constructor
  · simp [tick]
  · simp [tick]

/-- Claim C1 (amended): on a tick whose observation carries a pitch code
that either differs from the target pitch code or is out of tune beyond the
tolerance, the matcher sets the hold time to max(0, hold - 16), which is
never negative; a tick whose observation has no pitch code (NoPitch) is
skipped unchanged rather than decayed. -/
theorem C1_mismatch_decays (notes : List Note) (gameMode : GameMode)
    (s : MState) (o : Obs) (t : Note)
    (hc : s.completed = false)
    (ht : notes[s.currentIndex]? = some t)
    (hinv : s.matchDuration ≤ requiredHoldTime gameMode) :
    (o.userMidi = none → tick notes gameMode true s o = s) ∧
    (∀ m : ℤ, o.userMidi = some m →
      (m ≠ t.midi ∨ tolerance gameMode < |o.centsOff|) →
      tick notes gameMode true s o =
        { s with matchDuration := max 0 (s.matchDuration - 16) } ∧
      0 ≤ (tick notes gameMode true s o).matchDuration) := by
  refine ⟨fun h => tick_skip_noPitch notes gameMode true s o h, ?_⟩
  intro m hm hbad
  have hbad' : ¬(m = t.midi ∧ |o.centsOff| ≤ tolerance gameMode) := by
    rcases hbad with h1 | h2
    · exact fun hh => h1 hh.1
    · exact fun hh => absurd hh.2 (not_le.2 h2)
  have he := tick_mismatch gameMode hc ht hm hbad' hinv
  exact ⟨he, by rw [he]; exact le_max_left 0 _⟩

/-- Claim C1, witness. -/
theorem C1_mismatch_decays_witness :
    (⟨0, 16, false⟩ : MState).completed = false ∧
    ([⟨60⟩] : List Note)[0]? = some ⟨60⟩ ∧
    (tick [⟨60⟩] GameMode.EASY true ⟨0, 16, false⟩ ⟨some 61, 0⟩ =
        { (⟨0, 16, false⟩ : MState) with matchDuration := max 0 (16 - 16) } ∧
      0 ≤ (tick [⟨60⟩] GameMode.EASY true ⟨0, 16, false⟩
        ⟨some 61, 0⟩).matchDuration) :=
  ⟨rfl, rfl,
    (C1_mismatch_decays [⟨60⟩] GameMode.EASY ⟨0, 16, false⟩ ⟨some 61, 0⟩ ⟨60⟩
      rfl rfl (by norm_num [requiredHoldTime])).2 61 rfl
      (Or.inl (by decide))⟩

/-- Claim C3: from hold 0 on a non-final target note in Hard mode, five
consecutive matching in-tune ticks accumulate exactly 80 ms of hold with no
advance (the advance condition is strict), and a sixth matching tick
reaches 96 > 80, advances currentIndex by exactly one, and resets the hold
to 0. -/
theorem C3_hold_accumulation (notes : List Note) (i : ℕ) (t : Note)
    (o1 o2 o3 o4 o5 o6 : Obs)
    (ht : notes[i]? = some t) (hlast : i < notes.length - 1)
    (h1 : o1.userMidi = some t.midi) (c1 : |o1.centsOff| ≤ 25)
    (h2 : o2.userMidi = some t.midi) (c2 : |o2.centsOff| ≤ 25)
    (h3 : o3.userMidi = some t.midi) (c3 : |o3.centsOff| ≤ 25)
    (h4 : o4.userMidi = some t.midi) (c4 : |o4.centsOff| ≤ 25)
    (h5 : o5.userMidi = some t.midi) (c5 : |o5.centsOff| ≤ 25)
    (h6 : o6.userMidi = some t.midi) (c6 : |o6.centsOff| ≤ 25) :
    runTicks notes GameMode.HARD true ⟨i, 0, false⟩ [o1, o2, o3, o4, o5] =
      ⟨i, 80, false⟩ ∧
    runTicks notes GameMode.HARD true ⟨i, 0, false⟩ [o1, o2, o3, o4, o5, o6] =
      ⟨i + 1, 0, false⟩ := by
  constructor
  · simp only [runTicks]
    rw [tick_hard_noadv ht h1 c1 (by norm_num),
      tick_hard_noadv ht h2 c2 (by norm_num),
      tick_hard_noadv ht h3 c3 (by norm_num),
      tick_hard_noadv ht h4 c4 (by norm_num),
      tick_hard_noadv ht h5 c5 (by norm_num)]
    norm_num
  · simp only [runTicks]
    rw [tick_hard_noadv ht h1 c1 (by norm_num),
      tick_hard_noadv ht h2 c2 (by norm_num),
      tick_hard_noadv ht h3 c3 (by norm_num),
      tick_hard_noadv ht h4 c4 (by norm_num),
      tick_hard_noadv ht h5 c5 (by norm_num),
      tick_hard_adv ht h6 c6 (by norm_num) hlast]

/-- Claim C3, witness. -/
theorem C3_hold_accumulation_witness :
    ([⟨60⟩, ⟨62⟩] : List Note)[0]? = some ⟨60⟩ ∧
    (runTicks [⟨60⟩, ⟨62⟩] GameMode.HARD true ⟨0, 0, false⟩
        [⟨some 60, 0⟩, ⟨some 60, 0⟩, ⟨some 60, 0⟩, ⟨some 60, 0⟩,
          ⟨some 60, 0⟩] = ⟨0, 80, false⟩ ∧
      runTicks [⟨60⟩, ⟨62⟩] GameMode.HARD true ⟨0, 0, false⟩
        [⟨some 60, 0⟩, ⟨some 60, 0⟩, ⟨some 60, 0⟩, ⟨some 60, 0⟩,
          ⟨some 60, 0⟩, ⟨some 60, 0⟩] = ⟨0 + 1, 0, false⟩) :=
  ⟨rfl,
    C3_hold_accumulation [⟨60⟩, ⟨62⟩] 0 ⟨60⟩
      ⟨some 60, 0⟩ ⟨some 60, 0⟩ ⟨some 60, 0⟩ ⟨some 60, 0⟩ ⟨some 60, 0⟩
      ⟨some 60, 0⟩ rfl (by decide)
      rfl (by decide) rfl (by decide) rfl (by decide)
      rfl (by decide) rfl (by decide) rfl (by decide)⟩

/-- Claim C9: once completed is true every tick is a no-op on the
progression state, for any observation, difficulty and listening flag, and
an explicit restart reinitializes the state to (0, 0, false). -/
theorem C9_completed_noop (notes : List Note) (gameMode : GameMode)
    (isListening : Bool) (s : MState) (o : Obs) (hc : s.completed = true) :
    tick notes gameMode isListening s o = s ∧
    restart = (⟨0, 0, false⟩ : MState) :=
  ⟨by simp [tick, hc], rfl⟩

/-- Claim C9, witness. -/
theorem C9_completed_noop_witness :
    (⟨1, 50, true⟩ : MState).completed = true ∧
    (tick [⟨60⟩, ⟨62⟩] GameMode.HARD true ⟨1, 50, true⟩ ⟨some 62, 0⟩ =
        ⟨1, 50, true⟩ ∧
      restart = (⟨0, 0, false⟩ : MState)) :=
  ⟨rfl, C9_completed_noop [⟨60⟩, ⟨62⟩] GameMode.HARD true ⟨1, 50, true⟩
    ⟨some 62, 0⟩ rfl⟩

/-! ## Classifier lemmas and claims -/

lemma midiFloat_rpow (x : ℝ) : midiFloat (440 * (2 : ℝ) ^ x) = 12 * x + 69 := by
  have h2 : Real.log 2 ≠ 0 := ne_of_gt (Real.log_pos (by norm_num))
  unfold midiFloat
  rw [mul_div_cancel_left₀ _ (by norm_num : (440 : ℝ) ≠ 0),
    Real.log_rpow (by norm_num : (0 : ℝ) < 2), mul_div_assoc, div_self h2,
    mul_one]

lemma jsRound_bounds (x : ℝ) :
    -(1 / 2) ≤ x - (jsRound x : ℝ) ∧ x - (jsRound x : ℝ) < 1 / 2 := by
  have h1 : (jsRound x : ℝ) ≤ x + 1 / 2 := Int.floor_le (x + 1 / 2)
  have h2 : x + 1 / 2 < (jsRound x : ℝ) + 1 := Int.lt_floor_add_one (x + 1 / 2)
  constructor <;> [linarith; linarith]

/-- Claim C5, counterexample to the claim as stated: at the frequency
440 * 2^(1/24) the continuous pitch value is exactly 69.5; JavaScript
Math.round rounds half-way cases up, so the pitch code is 70 and the
tuning error is exactly -50 cents, which is not in the claimed half-open
interval (-50, +50]. -/
theorem C5_counterexample :
    centsOff (440 * (2 : ℝ) ^ ((1 : ℝ) / 24)) = -50 ∧
    ¬(-50 < centsOff (440 * (2 : ℝ) ^ ((1 : ℝ) / 24))) := by
  have hmf : midiFloat (440 * (2 : ℝ) ^ ((1 : ℝ) / 24)) = 139 / 2 := by
    rw [midiFloat_rpow]; norm_num
  have hmn : midiNote (440 * (2 : ℝ) ^ ((1 : ℝ) / 24)) = 70 := by
    rw [midiNote, hmf, jsRound]
    rw [show (139 : ℝ) / 2 + 1 / 2 = ((70 : ℤ) : ℝ) by norm_num]
    exact Int.floor_intCast 70
  have hc : centsOff (440 * (2 : ℝ) ^ ((1 : ℝ) / 24)) = -50 := by
    rw [centsOff, hmf, hmn]; norm_num
  exact ⟨hc, by rw [hc]; norm_num⟩

/-- Claim C5 (amended): for every positive frequency the pitch code is
round(p) with p = 12 * log2(f / 440) + 69 and the tuning error is
(p - round(p)) * 100; because Math.round rounds half-way cases up, the
error always lies in the half-open interval [-50, +50) — attained at -50,
never reaching +50 — rather than in (-50, +50]. -/
theorem C5_cents_range (f : ℝ) (hf : 0 < f) :
    midiNote f = jsRound (midiFloat f) ∧
    centsOff f = (midiFloat f - (midiNote f : ℝ)) * 100 ∧
    -50 ≤ centsOff f ∧ centsOff f < 50 := by
  refine ⟨rfl, rfl, ?_, ?_⟩
  · have h := (jsRound_bounds (midiFloat f)).1
    rw [centsOff, midiNote]; nlinarith
  · have h := (jsRound_bounds (midiFloat f)).2
    rw [centsOff, midiNote]; nlinarith

/-- Claim C5, witness. -/
theorem C5_cents_range_witness :
    0 < (440 : ℝ) ∧ (-50 ≤ centsOff 440 ∧ centsOff 440 < 50) :=
  ⟨by norm_num, (C5_cents_range 440 (by norm_num)).2.2⟩

/-- Claim C6: for every integer pitch code c in [48, 84], classifying the
frequency 440 * 2^((c - 69)/12) produced by getFrequencyFromMidi yields
pitch code exactly c and tuning error exactly 0 (the embedding over the
reals realizes the algebraic inverse exactly, hence within any floating
tolerance). -/
theorem C6_code_frequency_inverse (c : ℤ) (h1 : 48 ≤ c) (h2 : c ≤ 84) :
    midiNote (getFrequencyFromMidi c) = c ∧
    centsOff (getFrequencyFromMidi c) = 0 := by
  have hmf : midiFloat (getFrequencyFromMidi c) = (c : ℝ) := by
    rw [getFrequencyFromMidi, midiFloat_rpow]; ring
  have hmn : midiNote (getFrequencyFromMidi c) = c := by
    rw [midiNote, hmf, jsRound]
    rw [show (c : ℝ) + 1 / 2 = (c : ℝ) + (1 / 2 : ℝ) by norm_num,
      Int.floor_int_add]
    norm_num
  refine ⟨hmn, ?_⟩
  rw [centsOff, hmf, hmn]
  ring

/-- Claim C6, witness. -/
theorem C6_code_frequency_inverse_witness :
    (48 : ℤ) ≤ 60 ∧ (60 : ℤ) ≤ 84 ∧
    (midiNote (getFrequencyFromMidi 60) = 60 ∧
      centsOff (getFrequencyFromMidi 60) = 0) :=
  ⟨by decide, by decide,
    C6_code_frequency_inverse 60 (by decide) (by decide)⟩

/-- Claim C7: the pitch code of the per-tick observation is None exactly
when the detector result is not a finite frequency strictly inside the
80-1200 Hz vocal band (in particular when it is the NoPitch sentinel -1,
which lies below the band, or an infinity or NaN); out-of-band values give
None rather than an error, and in-band values give the rounded pitch code
of the detected frequency. -/
theorem C7_band_filter (r : JsNumber) :
    (userMidiOf r = none ↔ ¬∃ x : ℚ, r = JsNumber.val x ∧ 80 < x ∧ x < 1200) ∧
    userMidiOf noPitch = none ∧
    (∀ x : ℚ, r = JsNumber.val x → 80 < x → x < 1200 →
      userMidiOf r = some (midiNote (x : ℝ))) := by
  refine ⟨?_, ?_, ?_⟩
  · cases r with
    | val x =>
      by_cases h : 80 < x ∧ x < 1200
      · simp [userMidiOf, h]
      · simp only [userMidiOf, if_neg h]
        constructor
        · rintro - ⟨y, hy, hgt, hlt⟩
          injection hy with hxy
          subst hxy
          exact h ⟨hgt, hlt⟩
        · intro _
          trivial
    | posInf => simp [userMidiOf]
    | negInf => simp [userMidiOf]
    | nan => simp [userMidiOf]
  · norm_num [userMidiOf, noPitch]
  · rintro x rfl h1 h2
    simp [userMidiOf, h1, h2]

/-- Claim C7, witness. -/
theorem C7_band_filter_witness :
    userMidiOf noPitch = none ∧
    userMidiOf (JsNumber.val 100) = some (midiNote ((100 : ℚ) : ℝ)) :=
  ⟨(C7_band_filter (JsNumber.val 100)).2.1,
    (C7_band_filter (JsNumber.val 100)).2.2 100 rfl (by norm_num)
      (by norm_num)⟩

/-! ## Detector lemmas and claims -/

/-- The rational noise-gate comparison used inside autoCorrelate agrees
with the source comparison Math.sqrt(sumSq / SIZE) < 0.01. -/
lemma rms_lt_hundredth_iff (buffer : List ℚ) :
    rms buffer < 1 / 100 ↔
      sumSq buffer / (buffer.length : ℚ) < 1 / 10000 := by
  rw [rms, Real.sqrt_lt' (by norm_num : (0 : ℝ) < 1 / 100),
    show ((1 : ℝ) / 100) ^ 2 = ((1 / 10000 : ℚ) : ℝ) by norm_num,
    show ((sumSq buffer : ℝ) / (buffer.length : ℝ)) =
      ((sumSq buffer / (buffer.length : ℚ) : ℚ) : ℝ) by push_cast; ring]
  exact Rat.cast_lt

/-- Claim C8: a buffer whose RMS amplitude is below the 0.01 noise floor
makes autoCorrelate return the NoPitch sentinel from its first guard,
before the trimming and autocorrelation stages. -/
theorem C8_noise_gate (buffer : List ℚ) (sampleRate : ℚ)
    (hne : buffer ≠ []) (h : rms buffer < 1 / 100) :
    autoCorrelate buffer sampleRate = noPitch := by
  unfold autoCorrelate noPitch
  rw [if_pos ((rms_lt_hundredth_iff buffer).1 h)]

/-- Claim C8, witness: the all-zeros buffer. -/
theorem C8_noise_gate_witness :
    ([(0 : ℚ), 0] ≠ ([] : List ℚ)) ∧ rms [0, 0] < 1 / 100 ∧
    autoCorrelate [0, 0] 44100 = noPitch := by
  have hne : [(0 : ℚ), 0] ≠ [] := by simp
  have h0 : rms [(0 : ℚ), 0] = 0 := by
    simp [rms, sumSq]
  exact ⟨hne, by rw [h0]; norm_num,
    C8_noise_gate [0, 0] 44100 hne (by rw [h0]; norm_num)⟩

/-- Claim C2, failing input: the buffer [0.1] passes the noise gate
(RMS = 0.1), trims to the empty region (r1 = 0 and r2 = SIZE - 1 = 0, so
the trimmed length 0 is below 3), and instead of returning NoPitch the
source walks on: maxpos stays -1, parabolic refinement is skipped through
NaN, and sampleRate / (-1) = -44100 is returned — a negative value that is
neither the NoPitch sentinel -1 nor a positive finite frequency. -/
theorem C2_degenerate_returns_negative :
    autoCorrelate [1 / 10] 44100 = JsNumber.val (-44100) ∧
    JsNumber.val (-44100) ≠ noPitch ∧ (-44100 : ℚ) < 0 := by
  norm_num [autoCorrelate, sumSq, trimLead, trimLeadLoop, trimTrail,
    trimTrailLoop, List.range', jsSlice, autocorr, declineWalk,
    declineWalkAux, maxLoop, parabolicRefine, cAt, jsDivide, noPitch]

/-- Modelled from the claim wording (for comparison with the source
trimming loop): the leading bound as the claim states it, the index of the
first sample in the first half of the buffer whose absolute value EXCEEDS
the trim threshold 0.2, falling back to the start boundary 0. -/
def specTrimLeadLoop (buffer : List ℚ) : List ℕ → ℕ
  | [] => 0
  | i :: rest =>
    if 1 / 5 < |buffer.getD i 0| then i else specTrimLeadLoop buffer rest

def specTrimLead (buffer : List ℚ) : ℕ :=
  specTrimLeadLoop buffer (List.range' 0 ((buffer.length + 1) / 2))

/-- Claim C4, counterexample to the claim as stated: the source loop stops
at the first sample BELOW the threshold, not the first sample exceeding
it.  On [0.5, 0.1, 0.5, 0.5, 0.5, 0.5] the source sets r1 = 1 (first
|sample| < 0.2) while the claimed rule gives 0 (first |sample| > 0.2). -/
theorem C4_counterexample :
    trimLead [1/2, 1/10, 1/2, 1/2, 1/2, 1/2] = 1 ∧
    specTrimLead [1/2, 1/10, 1/2, 1/2, 1/2, 1/2] = 0 ∧
    trimLead [1/2, 1/10, 1/2, 1/2, 1/2, 1/2] ≠
      specTrimLead [1/2, 1/10, 1/2, 1/2, 1/2, 1/2] := by
  norm_num [trimLead, trimLeadLoop, specTrimLead, specTrimLeadLoop,
    List.range', abs_of_nonneg]

lemma trimLeadLoop_none (buffer : List ℚ) :
    ∀ n a, (∀ j, a ≤ j → j < a + n → ¬(|buffer.getD j 0| < 1 / 5)) →
      trimLeadLoop buffer (List.range' a n) = 0 := by
  intro n
  induction n with
  | zero => intro a _; rfl
  | succ m ih =>
    intro a h
    rw [List.range'_succ]
    simp only [trimLeadLoop]
    rw [if_neg (h a le_rfl (by omega))]
    exact ih (a + 1) fun j hj1 hj2 => h j (by omega) (by omega)

lemma trimLeadLoop_finds (buffer : List ℚ) :
    ∀ n a i, a ≤ i → i < a + n → |buffer.getD i 0| < 1 / 5 →
      (∀ j, a ≤ j → j < i → ¬(|buffer.getD j 0| < 1 / 5)) →
      trimLeadLoop buffer (List.range' a n) = i := by
  intro n
  induction n with
  | zero => intro a i h1 h2 _ _; exact absurd h2 (by omega)
  | succ m ih =>
    intro a i h1 h2 hc hmin
    rw [List.range'_succ]
    simp only [trimLeadLoop]
    rcases eq_or_lt_of_le h1 with rfl | hlt
    · rw [if_pos hc]
    · rw [if_neg (hmin a le_rfl hlt)]
      exact ih (a + 1) i hlt (by omega) hc fun j hj1 hj2 =>
        hmin j (by omega) hj2

lemma trimTrailLoop_none (buffer : List ℚ) :
    ∀ n a,
      (∀ j, a ≤ j → j < a + n →
        ¬(|buffer.getD (buffer.length - j) 0| < 1 / 5)) →
      trimTrailLoop buffer (List.range' a n) = buffer.length - 1 := by
  intro n
  induction n with
  | zero => intro a _; rfl
  | succ m ih =>
    intro a h
    rw [List.range'_succ]
    simp only [trimTrailLoop]
    rw [if_neg (h a le_rfl (by omega))]
    exact ih (a + 1) fun j hj1 hj2 => h j (by omega) (by omega)

lemma trimTrailLoop_finds (buffer : List ℚ) :
    ∀ n a i, a ≤ i → i < a + n →
      |buffer.getD (buffer.length - i) 0| < 1 / 5 →
      (∀ j, a ≤ j → j < i →
        ¬(|buffer.getD (buffer.length - j) 0| < 1 / 5)) →
      trimTrailLoop buffer (List.range' a n) = buffer.length - i := by
  intro n
  induction n with
  | zero => intro a i h1 h2 _ _; exact absurd h2 (by omega)
  | succ m ih =>
    intro a i h1 h2 hc hmin
    rw [List.range'_succ]
    simp only [trimTrailLoop]
    rcases eq_or_lt_of_le h1 with rfl | hlt
    · rw [if_pos hc]
    · rw [if_neg (hmin a le_rfl hlt)]
      exact ih (a + 1) i hlt (by omega) hc fun j hj1 hj2 =>
        hmin j (by omega) hj2

/-- Claim C4 (amended): the leading bound is the index of the FIRST sample
in the first half of the buffer whose absolute value is strictly BELOW the
trim threshold 0.2, and the trailing bound is SIZE - i for the first
i ≥ 1 with |buffer[SIZE - i]| below the threshold while 2 * i < SIZE;
when no such sample exists on a side, the bound falls back to that side's
original boundary (0, respectively SIZE - 1). -/
theorem C4_trim_bounds (buffer : List ℚ) :
    ((∀ i, 2 * i < buffer.length → ¬(|buffer.getD i 0| < 1 / 5)) →
      trimLead buffer = 0) ∧
    (∀ i, 2 * i < buffer.length → |buffer.getD i 0| < 1 / 5 →
      (∀ j, j < i → ¬(|buffer.getD j 0| < 1 / 5)) →
      trimLead buffer = i) ∧
    ((∀ i, 1 ≤ i → 2 * i < buffer.length →
        ¬(|buffer.getD (buffer.length - i) 0| < 1 / 5)) →
      trimTrail buffer = buffer.length - 1) ∧
    (∀ i, 1 ≤ i → 2 * i < buffer.length →
      |buffer.getD (buffer.length - i) 0| < 1 / 5 →
      (∀ j, 1 ≤ j → j < i →
        ¬(|buffer.getD (buffer.length - j) 0| < 1 / 5)) →
      trimTrail buffer = buffer.length - i) := by
  refine ⟨?_, ?_, ?_, ?_⟩
  · intro h
    exact trimLeadLoop_none buffer _ 0 fun j _ hj => h j (by omega)
  · intro i hi hc hmin
    exact trimLeadLoop_finds buffer _ 0 i (Nat.zero_le i) (by omega) hc
      fun j _ hj => hmin j hj
  · intro h
    exact trimTrailLoop_none buffer _ 1 fun j hj1 hj2 => h j hj1 (by omega)
  · intro i hi1 hi2 hc hmin
    exact trimTrailLoop_finds buffer _ 1 i hi1 (by omega) hc
      fun j hj1 hj2 => hmin j hj1 hj2

/-- Claim C4, witness. -/
theorem C4_trim_bounds_witness :
    2 * 1 < ([1/2, 1/10, 1/2, 1/2, 1/2, 1/2] : List ℚ).length ∧
    trimLead [1/2, 1/10, 1/2, 1/2, 1/2, 1/2] = 1 :=
  ⟨by simp, (C4_trim_bounds [1/2, 1/10, 1/2, 1/2, 1/2, 1/2]).2.1 1
    (by simp) (by norm_num [abs_of_nonneg])
    (by
      intro j hj
      have hj0 : j = 0 := by omega
      subst hj0
      norm_num [abs_of_nonneg])⟩

lemma declineWalkAux_zero (c : List ℚ) (d : ℕ) :
    declineWalkAux c 0 d = d := rfl

lemma declineWalkAux_succ (c : List ℚ) (fuel d : ℕ) :
    declineWalkAux c (fuel + 1) d =
      if d + 1 < c.length ∧ c.getD (d + 1) 0 < c.getD d 0 then
        declineWalkAux c fuel (d + 1)
      else d := rfl

lemma declineWalkAux_stable (c : List ℚ) :
    ∀ fuel d, c.length ≤ d + fuel →
      declineWalkAux c fuel d = declineWalkAux c (fuel + 1) d := by
  intro fuel
  induction fuel with
  | zero =>
    intro d hd
    rw [declineWalkAux_zero, declineWalkAux_succ, if_neg]
    rintro ⟨h1, -⟩
    omega
  | succ m ih =>
    intro d hd
    rw [declineWalkAux_succ c m d, declineWalkAux_succ c (m + 1) d]
    by_cases hcond : d + 1 < c.length ∧ c.getD (d + 1) 0 < c.getD d 0
    · rw [if_pos hcond, if_pos hcond, ih (d + 1) (by omega)]
    · rw [if_neg hcond, if_neg hcond]

lemma declineWalkAux_lt (c : List ℚ) :
    ∀ fuel d, d < c.length → declineWalkAux c fuel d < c.length := by
  intro fuel
  induction fuel with
  | zero => intro d hd; exact hd
  | succ m ih =>
    intro d hd
    rw [declineWalkAux_succ]
    by_cases hcond : d + 1 < c.length ∧ c.getD (d + 1) 0 < c.getD d 0
    · rw [if_pos hcond]
      exact ih (d + 1) hcond.1
    · rw [if_neg hcond]
      exact hd

/-- Claim C10: on any autocorrelation array c (as computed by autocorr
from the trimmed region of any input buffer) the initial-decline walk
terminates — the fuel bound c.length is exact, extra fuel never changes
the result, because the comparison fails as soon as d + 1 passes the end —
and the final d never exceeds the last valid index of c when c is
nonempty. -/
theorem C10_decline_walk_bounded (c : List ℚ) :
    (∀ k, declineWalkAux c (c.length + k) 0 = declineWalk c) ∧
    (0 < c.length → declineWalk c < c.length) := by
  constructor
  · intro k
    induction k with
    | zero => rfl
    | succ m ih =>
      rw [← ih]
      exact (declineWalkAux_stable c (c.length + m) 0 (by omega)).symm
  · intro h
    exact declineWalkAux_lt c c.length 0 h

/-- Claim C10, witness. -/
theorem C10_decline_walk_bounded_witness :
    0 < [(1 : ℚ)].length ∧ declineWalk [(1 : ℚ)] < [(1 : ℚ)].length :=
  ⟨by simp, (C10_decline_walk_bounded [(1 : ℚ)]).2 (by simp)⟩

end VocalFlow
